import Mathlib

/-!
Shallow embedding of `src/decompress_dicom.py`, a DICOM decompression tool.

The program has three pieces:
  * `is_compressed`       — header-only classifier (lines 78-88);
  * `decompress_and_save_with_metadata` — single-file converter (lines 91-127);
  * `process_dicom_directory`           — directory walker (lines 130-151).

Modelling choices:
  * Paths are lists of components (`Path := List String`); `os.path.join`
    appends, `os.path.relpath p base` drops `base`'s components (in the walk,
    `base` is always a component-prefix of `p`).  The string rendering used
    by the `.lower().endswith(".dcm")` test on line 138 is `pathStr`, which
    interleaves the separator character.
  * The external libraries (pydicom reads/writes, SimpleITK decode) are an
    explicit environment `Env` of fallible oracles; `Except.error` models a
    raised exception caught by the surrounding `try`.
  * A pydicom `Dataset` keeps the fields the program touches plus an opaque
    `otherElements` association list standing for every remaining element.
  * Effects (file writes, directory creations, log lines) are returned as
    explicit event lists instead of being performed.
-/

namespace DicomDecompress

abbrev Path := List String

/-- Render a component path the way `os.path.join` renders it, with a
separator character between components. -/
def pathStr : Path → String
  | [] => ""
  | [c] => c
  | c :: c2 :: rest => c ++ "/" ++ pathStr (c2 :: rest)

/-- `os.path.relpath p base` for the only case the walker exercises:
`base` is a component-prefix of `p` (every walked `file_path` starts with
`input_dir`). -/
def relpath (p base : Path) : Path := p.drop base.length

/-- `os.path.dirname`: drop the final component. -/
def dirname (p : Path) : Path := p.dropLast

/-- Line 138: `file_path.lower().endswith(".dcm")`, at the character level. -/
def lowerEndsWithDcmChars (cs : List Char) : Bool :=
  List.isSuffixOf [ '.', 'd', 'c', 'm' ] (cs.map Char.toLower)

/-- Line 138: `file_path.lower().endswith(".dcm")`. -/
def lowerEndsWithDcm (s : String) : Bool := lowerEndsWithDcmChars s.data

/-- Lines 18-65: the hardcoded list `compressed_uids` of compressed
transfer-syntax UIDs. -/
def compressed_uids : List String := [
  "1.2.840.10008.1.2.4.50",
  "1.2.840.10008.1.2.4.51",
  "1.2.840.10008.1.2.4.52",
  "1.2.840.10008.1.2.4.53",
  "1.2.840.10008.1.2.4.54",
  "1.2.840.10008.1.2.4.55",
  "1.2.840.10008.1.2.4.56",
  "1.2.840.10008.1.2.4.57",
  "1.2.840.10008.1.2.4.58",
  "1.2.840.10008.1.2.4.59",
  "1.2.840.10008.1.2.4.60",
  "1.2.840.10008.1.2.4.61",
  "1.2.840.10008.1.2.4.62",
  "1.2.840.10008.1.2.4.63",
  "1.2.840.10008.1.2.4.64",
  "1.2.840.10008.1.2.4.65",
  "1.2.840.10008.1.2.4.66",
  "1.2.840.10008.1.2.4.70",
  "1.2.840.10008.1.2.4.80",
  "1.2.840.10008.1.2.4.81",
  "1.2.840.10008.1.2.4.90",
  "1.2.840.10008.1.2.4.91",
  "1.2.840.10008.1.2.4.92",
  "1.2.840.10008.1.2.4.93",
  "1.2.840.10008.1.2.4.94",
  "1.2.840.10008.1.2.4.95",
  "1.2.840.10008.1.2.5",
  "1.2.840.10008.1.2.4.100",
  "1.2.840.10008.1.2.4.102",
  "1.2.840.10008.1.2.4.103",
  "1.2.840.10008.1.2.4.201",
  "1.2.840.10008.1.2.4.202",
  "1.2.840.10008.1.2.4.203"]

/-- `pydicom.uid.ExplicitVRLittleEndian`, the canonical uncompressed
explicit-VR little-endian transfer syntax UID. -/
def ExplicitVRLittleEndian : String := "1.2.840.10008.1.2.1"

inductive LogLevel where
  | error
  | debug
deriving DecidableEq

structure LogEvent where
  level : LogLevel
  msg : String
deriving DecidableEq

/-- A Python value that `int(...)` is applied to on line 116: pydicom hands
back either something already integral or a raw string. -/
inductive PyIntLike where
  | int (n : Int)
  | str (s : String)
deriving DecidableEq

/-- Parse a decimal integer the way Python `int(str)` does (optional
surrounding whitespace, optional sign, at least one digit); `none` models
the `ValueError` raised otherwise. -/
def digitsToNat : List Char → Option Nat
  | [] => none
  | cs =>
    if cs.all Char.isDigit then
      some (cs.foldl (fun a c => a * 10 + (c.toNat - 48)) 0)
    else none

/-- Strip surrounding whitespace, as Python `int(str)` does before
parsing. -/
def trimChars (cs : List Char) : List Char :=
  ((cs.dropWhile Char.isWhitespace).reverse.dropWhile Char.isWhitespace).reverse

def pyIntOfString (s : String) : Option Int :=
  match trimChars s.data with
  | '-' :: rest => (digitsToNat rest).map (fun n => -(n : Int))
  | '+' :: rest => (digitsToNat rest).map Int.ofNat
  | cs => (digitsToNat cs).map Int.ofNat

/-- Python `int(v)` on line 116; `none` models a raised exception. -/
def pyInt : PyIntLike → Option Int
  | .int n => some n
  | .str s => pyIntOfString s

/-- `ds.file_meta`: the file meta information header. -/
structure FileMeta where
  TransferSyntaxUID : String
deriving DecidableEq

/-- The pydicom dataset fields the program touches, plus `otherElements`
standing for every element it does not. -/
structure Dataset where
  file_meta : FileMeta
  SeriesInstanceUID : String
  StudyInstanceUID : String
  SeriesNumber : String
  ImageOrientationPatient : List String
  ImagePositionPatient : List String
  InstanceNumber : Option PyIntLike
  PixelData : List Nat
  pixelVR : String
  otherElements : List (String × String)
deriving DecidableEq

/-- The raw sample array produced by
`sitk.GetArrayFromImage(sitk.ReadImage(path))`: its numpy dtype name and
its `tobytes()` serialisation. -/
structure ImageArray where
  dtype : String
  bytes : List Nat
deriving DecidableEq

/-- The external world: each field is one fallible library call the program
makes on a path.  `Except.error e` models that call raising an exception
with message `e`.
  * `readHeader` — `pydicom.dcmread(path, stop_before_pixels=True)`
    followed by the `ds.file_meta.TransferSyntaxUID` attribute access
    (line 83-84); any failure in either is a raise.
  * `readFull`   — `pydicom.dcmread(path)` (line 97).
  * `sitkRead`   — `sitk.GetArrayFromImage(sitk.ReadImage(path))` (line 98).
  * `saveFails`  — whether `ds.save_as(output_path)` raises (line 121). -/
structure Env where
  readHeader : Path → Except String String
  readFull : Path → Except String Dataset
  sitkRead : Path → Except String ImageArray
  saveFails : Path → Bool

/-- Result of running `is_compressed`: the returned Bool and the log lines
emitted. -/
def is_compressed_run (env : Env) (file_path : Path) : Bool × List LogEvent :=
  match env.readHeader file_path with
  | .ok transfer_syntax => (decide ( transfer_syntax ∈ compressed_uids), [])
  | .error e =>
      (false,
       [⟨.error, "Error reading file " ++ pathStr file_path ++ ": " ++ e⟩])

/-- Lines 78-88: `is_compressed(file_path)`. -/
def is_compressed (env : Env) (file_path : Path) : Bool :=
  (is_compressed_run env file_path).1

/-- Lines 99-104: replace `ds.PixelData` with `image_array.tobytes()` and
set the pixel-data element's VR from the dtype. -/
def decodeUpdate (ds : Dataset) (image_array : ImageArray) : Dataset :=
  { ds with
    PixelData := image_array.bytes
    pixelVR :=
      if image_array.dtype = "uint16" ∨ image_array.dtype = "int16" then "OW"
      else "OB" }

/-- Lines 106-111: overwrite the five series-consistency fields from the
reference, when one was supplied. -/
def applyReference (ds : Dataset) : Option Dataset → Dataset
  | some r =>
      { ds with
        SeriesInstanceUID := r.SeriesInstanceUID
        StudyInstanceUID := r.StudyInstanceUID
        SeriesNumber := r.SeriesNumber
        ImageOrientationPatient := r.ImageOrientationPatient
        ImagePositionPatient := r.ImagePositionPatient }
  | none => ds

/-- Lines 115-118 as a value: `int(ds.InstanceNumber)` if the element is
present (`none` = the coercion raised), else the default `1`. -/
def instanceNumberResult (ds : Dataset) : Option Int :=
  match ds.InstanceNumber with
  | some v => pyInt v
  | none => some 1

/-- Lines 115-118 as an update: store the coerced integer. -/
def setInstanceNumber (ds : Dataset) (n : Int) : Dataset :=
  { ds with InstanceNumber := some (.int n) }

/-- Line 120: `ds.file_meta.TransferSyntaxUID = ExplicitVRLittleEndian`. -/
def setTransferSyntax (ds : Dataset) : Dataset :=
  { ds with file_meta := ⟨ExplicitVRLittleEndian⟩ }

/-- Result of running the converter: the value returned (`none` = the
`except` branch ran), the files written, and the log lines emitted. -/
structure ConvOut where
  ret : Option Dataset
  writes : List (Path × Dataset)
  logs : List LogEvent
deriving DecidableEq

/-- The `except Exception` branch on lines 125-127: log the error with the
offending input path, return `None`, write nothing. -/
def convFail (file_path : Path) (e : String) : ConvOut :=
  ⟨none, [],
   [⟨.error, "Failed to decompress file " ++ pathStr file_path ++ ": " ++ e⟩]⟩

/-- Lines 91-127: `decompress_and_save_with_metadata(file_path,
output_path, reference_metadata)`.  Python aliasing note: when no reference
is supplied, line 113 binds `reference_metadata` to the same object as
`ds`, so the snapshot returned on line 124 reflects the instance-number and
transfer-syntax mutations done after line 113; when a reference is
supplied, the object returned is the caller's reference itself. -/
def decompress_and_save_with_metadata (env : Env) (file_path output_path : Path)
    (reference_metadata : Option Dataset) : ConvOut :=
  match env.readFull file_path with
  | .error e => convFail file_path e
  | .ok ds0 =>
    match env.sitkRead file_path with
    | .error e => convFail file_path e
    | .ok image_array =>
      let ds1 := applyReference (decodeUpdate ds0 image_array) reference_metadata
      match instanceNumberResult ds1 with
      | none => convFail file_path "invalid literal for int()"
      | some n =>
        let ds2 := setTransferSyntax (setInstanceNumber ds1 n)
        if env.saveFails output_path then
          convFail file_path "save_as failed"
        else
          ⟨some (reference_metadata.getD ds2), [(output_path, ds2)],
           [⟨.debug, "Decompressed and saved file: " ++ pathStr output_path⟩]⟩

/-- Accumulated effects of a walker run: converter invocations as
(input path, output path) pairs, file writes, directory creations
(`os.makedirs`), and log lines. -/
structure RunOut where
  conversions : List (Path × Path)
  writes : List (Path × Dataset)
  mkdirs : List Path
  logs : List LogEvent
deriving DecidableEq

def emptyRun : RunOut := ⟨[], [], [], []⟩

def mergeRun (a b : RunOut) : RunOut :=
  ⟨a.conversions ++ b.conversions, a.writes ++ b.writes,
   a.mkdirs ++ b.mkdirs, a.logs ++ b.logs⟩

/-- Lines 136-151, body of the inner loop for one directory entry `file`
found under `root = input_dir ++ sub`. -/
def processFile (env : Env) (input_dir : Path) (output_dir : Option Path)
    (sub : Path) (file : String) : RunOut :=
  let file_path := input_dir ++ sub ++ [file]
  if lowerEndsWithDcm (pathStr file_path) then
    match is_compressed_run env file_path with
    | (true, clogs) =>
      let dbg : LogEvent := ⟨.debug, "Compressed file found: " ++ pathStr file_path⟩
      match output_dir with
      | some od =>
        let output_file_path := od ++ relpath file_path input_dir
        let conv := decompress_and_save_with_metadata env file_path output_file_path none
        ⟨[(file_path, output_file_path)], conv.writes,
         [dirname output_file_path], clogs ++ dbg :: conv.logs⟩
      | none =>
        let conv := decompress_and_save_with_metadata env file_path file_path none
        ⟨[(file_path, file_path)], conv.writes, [], clogs ++ dbg :: conv.logs⟩
    | (false, clogs) =>
      ⟨[], [], [],
       clogs ++ [⟨.debug, "File is already uncompressed: " ++ pathStr file_path⟩]⟩
  else emptyRun

/-- One `(root, _, files)` tuple yielded by `os.walk(input_dir)`:
`root = input_dir ++ sub`. -/
structure WalkEntry where
  sub : Path
  files : List String
deriving DecidableEq

/-- The inner `for file in files` loop. -/
def processEntry (env : Env) (input_dir : Path) (output_dir : Option Path)
    (sub : Path) : List String → RunOut
  | [] => emptyRun
  | file :: rest =>
      mergeRun (processFile env input_dir output_dir sub file)
        (processEntry env input_dir output_dir sub rest)

/-- Lines 130-151: `process_dicom_directory(input_dir, output_dir)`.  The
`walk` argument is the sequence of tuples `os.walk` yields for the input
tree (the enumeration itself is the filesystem's, so it is data here). -/
def process_dicom_directory (env : Env) (input_dir : Path)
    (output_dir : Option Path) : List WalkEntry → RunOut
  | [] => emptyRun
  | e :: rest =>
      mergeRun (processEntry env input_dir output_dir e.sub e.files)
        (process_dicom_directory env input_dir output_dir rest)

/-- The output path the walker computes on lines 142-147. -/
def outputPathFor (input_dir : Path) (output_dir : Option Path)
    (sub : Path) (file : String) : Path :=
  match output_dir with
  | some od => od ++ relpath (input_dir ++ sub ++ [file]) input_dir
  | none => input_dir ++ sub ++ [file]

/-! Concrete sample data used to exercise the embedding. -/

def dsA : Dataset :=
  { file_meta := ⟨"1.2.840.10008.1.2.4.50"⟩
    SeriesInstanceUID := "S1"
    StudyInstanceUID := "ST1"
    SeriesNumber := "1"
    ImageOrientationPatient := ["1", "0", "0", "0", "1", "0"]
    ImagePositionPatient := ["0", "0", "0"]
    InstanceNumber := some (.str "5")
    PixelData := [0]
    pixelVR := "OB"
    otherElements := [("PatientName", "DOE")] }

def dsB : Dataset :=
  { dsA with SeriesInstanceUID := "S2", InstanceNumber := none }

def dsBad : Dataset :=
  { dsA with InstanceNumber := some (.str "five") }

def arrA : ImageArray := ⟨"int16", [7, 1]⟩

def pIn : Path := ["in", "a.dcm"]

def pInB : Path := ["in", "b.dcm"]

def pOut : Path := ["out", "a.dcm"]

/-- A filesystem with two readable compressed files `in/a.dcm` and
`in/b.dcm` with distinct series identifiers. -/
def envA : Env :=
  { readHeader := fun p =>
      if p = pIn ∨ p = pInB then .ok "1.2.840.10008.1.2.4.50"
      else .error "read failed"
    readFull := fun p =>
      if p = pIn then .ok dsA
      else if p = pInB then .ok dsB
      else .error "read failed"
    sitkRead := fun p =>
      if p = pIn ∨ p = pInB then .ok arrA else .error "decode failed"
    saveFails := fun _ => false }

/-- A filesystem on which every library call raises. -/
def envErr : Env :=
  { readHeader := fun _ => .error "oops"
    readFull := fun _ => .error "oops"
    sitkRead := fun _ => .error "oops"
    saveFails := fun _ => false }

/-- Like `envA` but `in/a.dcm` carries a non-integral instance number. -/
def envBad : Env :=
  { envA with
    readFull := fun p => if p = pIn then .ok dsBad else .error "read failed" }

/-- The first write performed by converting `in/a.dcm` out of place. -/
def wSample : Path × Dataset :=
  (decompress_and_save_with_metadata envA pIn pOut none).writes.getD 0 ([], dsA)

/-- The first write performed by converting `in/a.dcm` against reference
`dsB`. -/
def wRef : Path × Dataset :=
  (decompress_and_save_with_metadata envA pIn pOut (some dsB)).writes.getD 0 ([], dsA)

/-- The walk `os.walk` yields over the sample `in` directory. -/
def walkA : List WalkEntry := [⟨[], ["a.dcm", "b.dcm"]⟩]

/-- A full sample run over both files with a separate output root. -/
def runA : RunOut := process_dicom_directory envA ["in"] (some ["out"]) walkA

/-- The first file's write in `runA`. -/
def wRunA : Path × Dataset := runA.writes.getD 0 ([], dsA)

/-- The second file's write in `runA`. -/
def wRunB : Path × Dataset := runA.writes.getD 1 ([], dsA)

/-! ## Helper lemmas -/

/-- The converter either runs its `except` branch, or every step succeeds
and it performs exactly one write. -/
theorem conv_cases (env : Env) (fp op : Path) (ref : Option Dataset) :
    (∃ e, decompress_and_save_with_metadata env fp op ref = convFail fp e) ∨
    (∃ ds0 image_array n,
      env.readFull fp = .ok ds0 ∧
      env.sitkRead fp = .ok image_array ∧
      env.saveFails op = false ∧
      instanceNumberResult (applyReference (decodeUpdate ds0 image_array) ref) = some n ∧
      decompress_and_save_with_metadata env fp op ref =
        ⟨some (ref.getD (setTransferSyntax (setInstanceNumber
            (applyReference (decodeUpdate ds0 image_array) ref) n))),
         [(op, setTransferSyntax (setInstanceNumber
            (applyReference (decodeUpdate ds0 image_array) ref) n))],
         [⟨.debug, "Decompressed and saved file: " ++ pathStr op⟩]⟩) := by
  unfold decompress_and_save_with_metadata
  cases h1 : env.readFull fp with
  | error e => exact Or.inl ⟨e, rfl⟩
  | ok ds0 =>
    cases h2 : env.sitkRead fp with
    | error e => exact Or.inl ⟨e, rfl⟩
    | ok image_array =>
      cases h3 : instanceNumberResult (applyReference (decodeUpdate ds0 image_array) ref) with
      | none => exact Or.inl ⟨"invalid literal for int()", by simp [h3]⟩
      | some n =>
        cases h4 : env.saveFails op with
        | true => exact Or.inl ⟨"save_as failed", by simp [h3, h4]⟩
        | false => exact Or.inr ⟨ds0, image_array, n, rfl, rfl, rfl, h3, by simp [h3]⟩

/-- Membership in the converter's write list determines the whole run. -/
theorem conv_mem_writes {env : Env} {fp op : Path} {ref : Option Dataset}
    {w : Path × Dataset}
    (hw : w ∈ (decompress_and_save_with_metadata env fp op ref).writes) :
    ∃ ds0 image_array n,
      env.readFull fp = .ok ds0 ∧
      env.sitkRead fp = .ok image_array ∧
      env.saveFails op = false ∧
      instanceNumberResult (applyReference (decodeUpdate ds0 image_array) ref) = some n ∧
      w = (op, setTransferSyntax (setInstanceNumber
            (applyReference (decodeUpdate ds0 image_array) ref) n)) := by
  rcases conv_cases env fp op ref with ⟨e, he⟩ | ⟨ds0, image_array, n, h1, h2, h3, h4, he⟩
  · rw [he] at hw
    simp [convFail] at hw
  · rw [he] at hw
    simp at hw
    exact ⟨ds0, image_array, n, h1, h2, h3, h4, by simp [hw]⟩

/-! ## Claims -/

/-- Claim C1: every file written by a successful conversion carries the
canonical uncompressed explicit-VR little-endian transfer syntax UID, and
that UID is not a member of the compressed set, so no successful conversion
leaves a compressed encoding identifier on its output. -/
theorem C1_output_uncompressed (env : Env) (fp op : Path) (ref : Option Dataset)
    (w : Path × Dataset)
    (hw : w ∈ (decompress_and_save_with_metadata env fp op ref).writes) :
    w.2.file_meta.TransferSyntaxUID = ExplicitVRLittleEndian ∧
    w.2.file_meta.TransferSyntaxUID ∉ compressed_uids := by
  obtain ⟨ds0, image_array, n, _, _, _, _, hw2⟩ := conv_mem_writes hw
  rw [hw2]
  refine ⟨rfl, ?_⟩
  show ExplicitVRLittleEndian ∉ compressed_uids
  decide

/-- Witness for C1 at a concrete successful conversion. -/
theorem C1_witness :
    wSample ∈ (decompress_and_save_with_metadata envA pIn pOut none).writes ∧
    wSample.2.file_meta.TransferSyntaxUID = ExplicitVRLittleEndian ∧
    wSample.2.file_meta.TransferSyntaxUID ∉ compressed_uids :=
  ⟨by decide, C1_output_uncompressed envA pIn pOut none wSample (by decide)⟩

/-- Claim C2: `is_compressed` returns true exactly when the header read
succeeds and yields a transfer syntax in the compressed set; on a failed
header read it returns false and logs one error naming the path. -/
theorem C2_is_compressed_spec (env : Env) (p : Path) :
    (is_compressed env p = true ↔
      ∃ ts, env.readHeader p = .ok ts ∧ ts ∈ compressed_uids) ∧
    (∀ e, env.readHeader p = .error e →
      is_compressed env p = false ∧
      (is_compressed_run env p).2 =
        [⟨.error, "Error reading file " ++ pathStr p ++ ": " ++ e⟩]) := by
  constructor
  · constructor
    · intro h
      unfold is_compressed is_compressed_run at h
      cases hh : env.readHeader p with
      | ok ts =>
        rw [hh] at h
        simp at h
        exact ⟨ts, rfl, h⟩
      | error e =>
        rw [hh] at h
        simp at h
    · rintro ⟨ts, hts, hmem⟩
      unfold is_compressed is_compressed_run
      rw [hts]
      simpa using hmem
  · intro e he
    unfold is_compressed is_compressed_run
    rw [he]
    exact ⟨rfl, rfl⟩

/-- Witness for C2 at a concrete unreadable file. -/
theorem C2_witness :
    is_compressed envErr pIn = false ∧
    (is_compressed_run envErr pIn).2 =
      [⟨.error, "Error reading file " ++ pathStr pIn ++ ": " ++ "oops"⟩] :=
  (C2_is_compressed_spec envErr pIn).2 "oops" rfl

/-- Claim C4: whenever a step of the converter raises (read, decode,
instance-number coercion, write), the exception is caught: the converter
logs one error naming the input path, returns the failure value `none` and
writes nothing; and the walker's loops process each later entry and file
unconditionally, so the walk continues past the failure. -/
theorem C4_failure_contained (env : Env) (fp op : Path) (ref : Option Dataset)
    (hfail : (∃ e, env.readFull fp = .error e) ∨
             (∃ e, env.sitkRead fp = .error e) ∨
             (∃ ds0 image_array, env.readFull fp = .ok ds0 ∧
               env.sitkRead fp = .ok image_array ∧
               instanceNumberResult (applyReference (decodeUpdate ds0 image_array) ref) = none) ∨
             env.saveFails op = true) :
    ((decompress_and_save_with_metadata env fp op ref).ret = none ∧
     (decompress_and_save_with_metadata env fp op ref).writes = [] ∧
     (∃ e, (decompress_and_save_with_metadata env fp op ref).logs =
       [⟨.error, "Failed to decompress file " ++ pathStr fp ++ ": " ++ e⟩])) ∧
    (∀ (i : Path) (o : Option Path) (entry : WalkEntry) (rest : List WalkEntry),
      process_dicom_directory env i o (entry :: rest) =
        mergeRun (processEntry env i o entry.sub entry.files)
          (process_dicom_directory env i o rest)) ∧
    (∀ (i : Path) (o : Option Path) (sub : Path) (f : String) (rest : List String),
      processEntry env i o sub (f :: rest) =
        mergeRun (processFile env i o sub f) (processEntry env i o sub rest)) := by
  refine ⟨?_, fun i o entry rest => rfl, fun i o sub f rest => rfl⟩
  rcases conv_cases env fp op ref with ⟨e, he⟩ | ⟨ds0, image_array, n, h1, h2, h3, h4, he⟩
  · rw [he]
    exact ⟨rfl, rfl, e, rfl⟩
  · exfalso
    rcases hfail with ⟨e, hh⟩ | ⟨e, hh⟩ | ⟨ds0', arr', hh1, hh2, hh3⟩ | hh
    · rw [h1] at hh
      cases hh
    · rw [h2] at hh
      cases hh
    · rw [h1] at hh1
      obtain rfl := Except.ok.inj hh1
      rw [h2] at hh2
      obtain rfl := Except.ok.inj hh2
      rw [h4] at hh3
      cases hh3
    · rw [h3] at hh
      cases hh

/-- Witness for C4 at a concrete file whose read raises. -/
theorem C4_witness :
    (decompress_and_save_with_metadata envErr pIn pOut none).ret = none ∧
    (decompress_and_save_with_metadata envErr pIn pOut none).writes = [] ∧
    ∃ e, (decompress_and_save_with_metadata envErr pIn pOut none).logs =
      [⟨LogLevel.error, "Failed to decompress file " ++ pathStr pIn ++ ": " ++ e⟩] :=
  (C4_failure_contained envErr pIn pOut none (Or.inl ⟨"oops", rfl⟩)).1

/-- Claim C5: given a reference snapshot, the converter overwrites exactly
the five series-consistency fields from it (every untouched element is the
input file's own); given no reference, the snapshot returned on success is
the written dataset itself. -/
theorem C5_metadata_stamping (env : Env) (fp op : Path) :
    (∀ (r ds0 : Dataset) (w : Path × Dataset),
      env.readFull fp = .ok ds0 →
      w ∈ (decompress_and_save_with_metadata env fp op (some r)).writes →
      w.2.SeriesInstanceUID = r.SeriesInstanceUID ∧
      w.2.StudyInstanceUID = r.StudyInstanceUID ∧
      w.2.SeriesNumber = r.SeriesNumber ∧
      w.2.ImageOrientationPatient = r.ImageOrientationPatient ∧
      w.2.ImagePositionPatient = r.ImagePositionPatient ∧
      w.2.otherElements = ds0.otherElements) ∧
    (∀ d, (decompress_and_save_with_metadata env fp op none).ret = some d →
      (decompress_and_save_with_metadata env fp op none).writes = [(op, d)]) := by
  constructor
  · intro r ds0 w h0 hw
    obtain ⟨ds0', image_array, n, h1, h2, h3, h4, hw2⟩ := conv_mem_writes hw
    rw [h0] at h1
    obtain rfl := Except.ok.inj h1
    rw [hw2]
    simp [setTransferSyntax, setInstanceNumber, applyReference, decodeUpdate]
  · intro d hd
    rcases conv_cases env fp op none with ⟨e, he⟩ | ⟨ds0, image_array, n, h1, h2, h3, h4, he⟩
    · rw [he] at hd
      cases hd
    · rw [he] at hd ⊢
      simp only [Option.getD] at hd
      obtain rfl := Option.some.inj hd
      rfl

/-- Witness for C5 at a concrete conversion stamped from reference `dsB`. -/
theorem C5_witness :
    wRef.2.SeriesInstanceUID = dsB.SeriesInstanceUID ∧
    wRef.2.StudyInstanceUID = dsB.StudyInstanceUID ∧
    wRef.2.SeriesNumber = dsB.SeriesNumber ∧
    wRef.2.ImageOrientationPatient = dsB.ImageOrientationPatient ∧
    wRef.2.ImagePositionPatient = dsB.ImagePositionPatient ∧
    wRef.2.otherElements = dsA.otherElements :=
  (C5_metadata_stamping envA pIn pOut).1 dsB dsA wRef rfl (by decide)

/-- Claim C6: every written output holds an integral instance number: the
input's value coerced to an integer when the element was present, and
exactly 1 when it was absent. -/
theorem C6_instance_number (env : Env) (fp op : Path) (ref : Option Dataset)
    (ds0 : Dataset) (w : Path × Dataset)
    (h0 : env.readFull fp = .ok ds0)
    (hw : w ∈ (decompress_and_save_with_metadata env fp op ref).writes) :
    (ds0.InstanceNumber = none → w.2.InstanceNumber = some (.int 1)) ∧
    (∀ v, ds0.InstanceNumber = some v →
      ∃ n, pyInt v = some n ∧ w.2.InstanceNumber = some (.int n)) := by
  obtain ⟨ds0', image_array, n, h1, h2, h3, h4, hw2⟩ := conv_mem_writes hw
  rw [h0] at h1
  obtain rfl := Except.ok.inj h1
  have hpres : (applyReference (decodeUpdate ds0 image_array) ref).InstanceNumber =
      ds0.InstanceNumber := by
    cases ref <;> simp [applyReference, decodeUpdate]
  unfold instanceNumberResult at h4
  rw [hpres] at h4
  constructor
  · intro hnone
    rw [hnone] at h4
    obtain rfl := Option.some.inj h4
    rw [hw2]
    simp [setTransferSyntax, setInstanceNumber]
  · intro v hv
    rw [hv] at h4
    refine ⟨n, h4, ?_⟩
    rw [hw2]
    simp [setTransferSyntax, setInstanceNumber]

/-- Witness for C6 at a concrete file whose instance number is the string
value 5. -/
theorem C6_witness :
    ∃ n, pyInt (.str "5") = some n ∧ wSample.2.InstanceNumber = some (.int n) :=
  (C6_instance_number envA pIn pOut none dsA wSample rfl (by decide)).2 (.str "5") rfl

/-- Claim C7: the written pixel-data element's VR is a function of the
decoded sample dtype: 16-bit signed or unsigned samples give OW, every
other dtype gives OB. -/
theorem C7_pixel_vr (env : Env) (fp op : Path) (ref : Option Dataset)
    (image_array : ImageArray) (w : Path × Dataset)
    (ha : env.sitkRead fp = .ok image_array)
    (hw : w ∈ (decompress_and_save_with_metadata env fp op ref).writes) :
    w.2.pixelVR =
      if image_array.dtype = "uint16" ∨ image_array.dtype = "int16" then "OW"
      else "OB" := by
  obtain ⟨ds0, arr, n, h1, h2, h3, h4, hw2⟩ := conv_mem_writes hw
  rw [ha] at h2
  obtain rfl := Except.ok.inj h2
  rw [hw2]
  cases ref <;> simp [setTransferSyntax, setInstanceNumber, applyReference, decodeUpdate]

/-- Witness for C7 at a concrete int16 decode. -/
theorem C7_witness :
    wSample.2.pixelVR =
      if arrA.dtype = "uint16" ∨ arrA.dtype = "int16" then "OW" else "OB" :=
  C7_pixel_vr envA pIn pOut none arrA wSample rfl (by decide)

/-- Claim C10: a present but non-integral instance number fails the whole
conversion: the coercion error is caught, the converter returns the failure
value, logs the path, and nothing is written (the coercion happens before
the save). -/
theorem C10_instance_coercion_failure (env : Env) (fp op : Path)
    (ref : Option Dataset) (ds0 : Dataset) (v : PyIntLike)
    (h0 : env.readFull fp = .ok ds0)
    (hv : ds0.InstanceNumber = some v)
    (hbad : pyInt v = none) :
    (decompress_and_save_with_metadata env fp op ref).ret = none ∧
    (decompress_and_save_with_metadata env fp op ref).writes = [] ∧
    ∃ e, (decompress_and_save_with_metadata env fp op ref).logs =
      [⟨.error, "Failed to decompress file " ++ pathStr fp ++ ": " ++ e⟩] := by
  rcases conv_cases env fp op ref with ⟨e, he⟩ | ⟨ds0', image_array, n, h1, h2, h3, h4, he⟩
  · rw [he]
    exact ⟨rfl, rfl, e, rfl⟩
  · exfalso
    rw [h0] at h1
    obtain rfl := Except.ok.inj h1
    have hpres : (applyReference (decodeUpdate ds0 image_array) ref).InstanceNumber =
        ds0.InstanceNumber := by
      cases ref <;> simp [applyReference, decodeUpdate]
    unfold instanceNumberResult at h4
    rw [hpres, hv] at h4
    have h5 : pyInt v = some n := h4
    rw [hbad] at h5
    cases h5

/-- Witness for C10 at a concrete file whose instance number is the
non-integral string value five. -/
theorem C10_witness :
    (decompress_and_save_with_metadata envBad pIn pOut none).ret = none ∧
    (decompress_and_save_with_metadata envBad pIn pOut none).writes = [] ∧
    ∃ e, (decompress_and_save_with_metadata envBad pIn pOut none).logs =
      [⟨LogLevel.error, "Failed to decompress file " ++ pathStr pIn ++ ": " ++ e⟩] :=
  C10_instance_coercion_failure envBad pIn pOut none dsBad (.str "five") rfl rfl (by decide)

/-! ## Walker lemmas -/

/-- The reversed suffix check cannot cross a path separator: the literal
has no separator character. -/
theorem isPrefixOf_mcd (G R : List Char) :
    List.isPrefixOf [ 'm', 'c', 'd', '.' ] (G ++ '/' :: R) =
    List.isPrefixOf [ 'm', 'c', 'd', '.' ] G := by
  rcases G with _ | ⟨a, _ | ⟨b, _ | ⟨c, _ | ⟨d, rest⟩⟩⟩⟩ <;> simp [List.isPrefixOf]

/-- The case-insensitive extension check only looks at what follows the
last separator. -/
theorem lowerEndsWithDcmChars_append (A g : List Char) :
    lowerEndsWithDcmChars (A ++ '/' :: g) = lowerEndsWithDcmChars g := by
  have hsl : Char.toLower '/' = '/' := by decide
  unfold lowerEndsWithDcmChars
  simp only [List.isSuffixOf, List.map_append, List.map_cons, hsl, List.reverse_append,
    List.reverse_cons, List.reverse_nil, List.nil_append, List.append_assoc,
    List.singleton_append]
  exact isPrefixOf_mcd _ _

/-- Rendering a nonempty directory prefix then one more component inserts a
separator before that component. -/
theorem pathStr_cons_append_data (c : String) (rest : Path) (file : String) :
    (pathStr ((c :: rest) ++ [file])).data =
      (pathStr (c :: rest)).data ++ '/' :: file.data := by
  induction rest generalizing c with
  | nil => simp [pathStr, String.data_append]
  | cons c2 rest2 ih =>
    have h1 : (c :: c2 :: rest2) ++ [file] = c :: ((c2 :: rest2) ++ [file]) := rfl
    have h2 : pathStr (c :: ((c2 :: rest2) ++ [file])) =
        c ++ "/" ++ pathStr ((c2 :: rest2) ++ [file]) := rfl
    rw [h1, h2, String.data_append, String.data_append, ih c2]
    simp [pathStr, String.data_append, List.append_assoc]

/-- The line-138 check on the rendered joined path equals the same check on
the file-name component alone. -/
theorem lowerEndsWithDcm_pathStr (p : Path) (file : String) :
    lowerEndsWithDcm (pathStr (p ++ [file])) = lowerEndsWithDcm file := by
  cases p with
  | nil => rfl
  | cons c rest =>
    unfold lowerEndsWithDcm
    rw [pathStr_cons_append_data]
    exact lowerEndsWithDcmChars_append _ _

/-- Specialisation to the walker's `file_path = input_dir ++ sub ++ [file]`. -/
theorem lowerEndsWithDcm_file_path (i sub : Path) (f : String) :
    lowerEndsWithDcm (pathStr (i ++ sub ++ [f])) = lowerEndsWithDcm f :=
  lowerEndsWithDcm_pathStr (i ++ sub) f

/-- Every write of one file's processing comes from the converter run on
that file, and only a matching compressed file reaches the converter. -/
theorem processFile_writes_mem {env : Env} {i : Path} {o : Option Path} {sub : Path}
    {f : String} {w : Path × Dataset}
    (hw : w ∈ (processFile env i o sub f).writes) :
    lowerEndsWithDcm f = true ∧
    is_compressed env (i ++ sub ++ [f]) = true ∧
    w ∈ (decompress_and_save_with_metadata env (i ++ sub ++ [f])
          (outputPathFor i o sub f) none).writes := by
  unfold processFile at hw
  simp only [lowerEndsWithDcm_file_path] at hw
  by_cases hdcm : lowerEndsWithDcm f = true
  · rw [if_pos hdcm] at hw
    cases hrun : is_compressed_run env (i ++ sub ++ [f]) with
    | mk b clogs =>
      rw [hrun] at hw
      cases b with
      | true =>
        have hcomp : is_compressed env (i ++ sub ++ [f]) = true := by
          unfold is_compressed
          rw [hrun]
        cases o with
        | some od => exact ⟨hdcm, hcomp, hw⟩
        | none => exact ⟨hdcm, hcomp, hw⟩
      | false => simp at hw
  · rw [if_neg hdcm] at hw
    simp [emptyRun] at hw

/-- Every write of a directory-entry loop comes from processing one of its
files. -/
theorem processEntry_writes_mem {env : Env} {i : Path} {o : Option Path} {sub : Path}
    {files : List String} {w : Path × Dataset}
    (hw : w ∈ (processEntry env i o sub files).writes) :
    ∃ f ∈ files, w ∈ (processFile env i o sub f).writes := by
  induction files with
  | nil => simp [processEntry, emptyRun] at hw
  | cons f rest ih =>
    simp only [processEntry, mergeRun, List.mem_append] at hw
    rcases hw with h | h
    · exact ⟨f, List.mem_cons_self f rest, h⟩
    · obtain ⟨g, hg, hmem⟩ := ih h
      exact ⟨g, List.mem_cons_of_mem f hg, hmem⟩

/-- Every write of a whole run comes from processing one enumerated file. -/
theorem run_writes_mem {env : Env} {i : Path} {o : Option Path}
    {walk : List WalkEntry} {w : Path × Dataset}
    (hw : w ∈ (process_dicom_directory env i o walk).writes) :
    ∃ entry ∈ walk, ∃ f ∈ entry.files,
      w ∈ (processFile env i o entry.sub f).writes := by
  induction walk with
  | nil => simp [process_dicom_directory, emptyRun] at hw
  | cons e rest ih =>
    simp only [process_dicom_directory, mergeRun, List.mem_append] at hw
    rcases hw with h | h
    · exact ⟨e, List.mem_cons_self e rest, processEntry_writes_mem h⟩
    · obtain ⟨entry, he, hmem⟩ := ih h
      exact ⟨entry, List.mem_cons_of_mem e he, hmem⟩

/-- Claim C8: the walker hands a file to the converter exactly when its
name ends in the dcm extension case-insensitively and `is_compressed`
holds; the converter's output path is the input path re-rooted under the
output root by its input-relative path (with the parent directory
created), or the input path itself when no output root is given. -/
theorem C8_walk_filter (env : Env) (i : Path) (o : Option Path) (sub : Path)
    (file : String) :
    ((processFile env i o sub file).conversions =
      if lowerEndsWithDcm file = true ∧ is_compressed env (i ++ sub ++ [file]) = true then
        [(i ++ sub ++ [file], outputPathFor i o sub file)]
      else []) ∧
    (∀ od, o = some od → outputPathFor i o sub file = od ++ (sub ++ [file])) ∧
    (o = none → outputPathFor i o sub file = i ++ sub ++ [file]) ∧
    (∀ od, o = some od → lowerEndsWithDcm file = true →
      is_compressed env (i ++ sub ++ [file]) = true →
      (processFile env i o sub file).mkdirs = [dirname (od ++ (sub ++ [file]))]) := by
  have hrel : relpath (i ++ sub ++ [file]) i = sub ++ [file] := by
    unfold relpath
    rw [List.append_assoc]
    exact List.drop_left i (sub ++ [file])
  refine ⟨?_, ?_, ?_, ?_⟩
  · unfold processFile
    simp only [lowerEndsWithDcm_file_path]
    by_cases hdcm : lowerEndsWithDcm file = true
    · rw [if_pos hdcm]
      cases hrun : is_compressed_run env (i ++ sub ++ [file]) with
      | mk b clogs =>
        have hc : is_compressed env (i ++ sub ++ [file]) = b := by
          unfold is_compressed
          rw [hrun]
        cases b with
        | true =>
          rw [if_pos ⟨hdcm, hc⟩]
          cases o with
          | some od => rfl
          | none => rfl
        | false =>
          have hneg : ¬(lowerEndsWithDcm file = true ∧
              is_compressed env (i ++ sub ++ [file]) = true) := by
            rintro ⟨h1, h2⟩
            rw [hc] at h2
            simp at h2
          rw [if_neg hneg]
    · rw [if_neg hdcm, if_neg (fun h => hdcm h.1)]
      rfl
  · intro od ho
    subst ho
    show od ++ relpath (i ++ sub ++ [file]) i = od ++ (sub ++ [file])
    rw [hrel]
  · intro ho
    subst ho
    rfl
  · intro od ho hdcm hcomp
    subst ho
    unfold processFile
    simp only [lowerEndsWithDcm_file_path]
    rw [if_pos hdcm]
    cases hrun : is_compressed_run env (i ++ sub ++ [file]) with
    | mk b clogs =>
      have hb : b = true := by
        unfold is_compressed at hcomp
        rw [hrun] at hcomp
        exact hcomp
      subst hb
      show [dirname (od ++ relpath (i ++ sub ++ [file]) i)] =
        [dirname (od ++ (sub ++ [file]))]
      rw [hrel]

/-- Witness for C8 at a concrete compressed file under an output root. -/
theorem C8_witness :
    (processFile envA ["in"] (some ["out"]) [] "a.dcm").mkdirs =
      [dirname (["out"] ++ ([] ++ ["a.dcm"]))] :=
  (C8_walk_filter envA ["in"] (some ["out"]) [] "a.dcm").2.2.2 ["out"] rfl
    (by decide) (by decide)

/-- Claim C3 counterexample: a walk over two compressed files whose series
identifiers differ.  Were the first conversion's snapshot used to stamp the
second file, the second write would carry the first file's series
identifier; instead the run's writes keep their own identifiers, because
line 149 invokes the converter with no reference and discards its return
value. -/
theorem C3_counterexample :
    runA.writes.map (fun w => w.2.SeriesInstanceUID) = ["S1", "S2"] ∧
    ("S2" : String) ≠ "S1" :=
  ⟨by decide, by decide⟩

/-- Claim C3 amended: no reference snapshot is threaded between files in a
walk: every conversion is invoked without reference metadata, so every
written file keeps its own input's series identifier, study identifier,
series number, image orientation and image position. -/
theorem C3_no_reference_threading (env : Env) (i : Path) (o : Option Path)
    (walk : List WalkEntry) (w : Path × Dataset)
    (hw : w ∈ (process_dicom_directory env i o walk).writes) :
    ∃ fp ds0, env.readFull fp = .ok ds0 ∧
      w.2.SeriesInstanceUID = ds0.SeriesInstanceUID ∧
      w.2.StudyInstanceUID = ds0.StudyInstanceUID ∧
      w.2.SeriesNumber = ds0.SeriesNumber ∧
      w.2.ImageOrientationPatient = ds0.ImageOrientationPatient ∧
      w.2.ImagePositionPatient = ds0.ImagePositionPatient := by
  obtain ⟨entry, hentry, f, hf, hmem⟩ := run_writes_mem hw
  obtain ⟨hdcm, hcomp, hconv⟩ := processFile_writes_mem hmem
  obtain ⟨ds0, image_array, n, h1, h2, h3, h4, hw2⟩ := conv_mem_writes hconv
  refine ⟨i ++ entry.sub ++ [f], ds0, h1, ?_⟩
  rw [hw2]
  simp [setTransferSyntax, setInstanceNumber, applyReference, decodeUpdate]

/-- Witness for the amended C3 at the second write of the sample run. -/
theorem C3_witness :
    ∃ fp ds0, envA.readFull fp = .ok ds0 ∧
      wRunB.2.SeriesInstanceUID = ds0.SeriesInstanceUID ∧
      wRunB.2.StudyInstanceUID = ds0.StudyInstanceUID ∧
      wRunB.2.SeriesNumber = ds0.SeriesNumber ∧
      wRunB.2.ImageOrientationPatient = ds0.ImageOrientationPatient ∧
      wRunB.2.ImagePositionPatient = ds0.ImagePositionPatient :=
  C3_no_reference_threading envA ["in"] (some ["out"]) walkA wRunB (by decide)

/-- Claim C9 counterexample: pass the input root itself as the output root;
the single compressed input file's own path is then among the run's write
targets, so an input file does not remain unchanged even though an output
root was given. -/
theorem C9_counterexample :
    (process_dicom_directory envA ["in"] (some ["in"])
        [⟨[], ["a.dcm"]⟩]).writes.map Prod.fst = [["in", "a.dcm"]] := by
  decide

/-- Claim C9 amended: the walk writes only to the computed output paths of
matching compressed files, and when an output root is given every write
target lies under that root — so files outside those output paths (non-dcm
files, uncompressed files, and input files whose paths are not themselves
computed output paths) are never written. -/
theorem C9_write_targets (env : Env) (i : Path) (o : Option Path)
    (walk : List WalkEntry) (w : Path × Dataset)
    (hw : w ∈ (process_dicom_directory env i o walk).writes) :
    (∃ entry ∈ walk, ∃ f ∈ entry.files,
      lowerEndsWithDcm f = true ∧
      is_compressed env (i ++ entry.sub ++ [f]) = true ∧
      w.1 = outputPathFor i o entry.sub f) ∧
    (∀ od, o = some od → od <+: w.1) := by
  obtain ⟨entry, hentry, f, hf, hmem⟩ := run_writes_mem hw
  obtain ⟨hdcm, hcomp, hconv⟩ := processFile_writes_mem hmem
  obtain ⟨ds0, image_array, n, h1, h2, h3, h4, hw2⟩ := conv_mem_writes hconv
  constructor
  · exact ⟨entry, hentry, f, hf, hdcm, hcomp, by rw [hw2]⟩
  · intro od ho
    subst ho
    rw [hw2]
    show od <+: od ++ relpath (i ++ entry.sub ++ [f]) i
    exact List.prefix_append _ _

/-- Witness for the amended C9 at the first write of the sample run. -/
theorem C9_witness : ["out"] <+: wRunA.1 :=
  (C9_write_targets envA ["in"] (some ["out"]) walkA wRunA (by decide)).2 ["out"] rfl

end DicomDecompress
